import Mathlib

/-!
Verification of the autoTrader Portfolio Decision Engine.

Each definition below is a shallow embedding of a function of the repository,
translated statement by statement from the Python source named in its doc
comment.  Numeric semantics: Python floats are modelled as exact rationals
(`ℚ`) for the purely arithmetic code, and as reals (`ℝ`) for the quality
scorer, whose formulas use `math.exp` and real exponentiation.  Python's
`round(x, n)` (round-half-to-even on the scaled value) is modelled exactly by
`pyRoundTo`; Python's `int(x)` (truncation towards zero) by `pyTrunc`;
Python's `x or d` on an optional number (which replaces both `None` and `0`
by `d`) by `pyOr`.

Modules of the repository that are imported by the embedded code but are not
part of the source tree (the combinatorial enumerator `holistic_planner`, the
`opportunity`/`analyst`/`allocation` component scorers, the sharpe/drawdown
metric calculators of `technical.py`, the configuration object, and the
constants module) are treated as parameters: the functions under verification
take their results or values as explicit arguments, so every theorem holds
for all possible behaviours of those collaborators.
-/

/-- Python `round` to an integer: round half to even (banker's rounding),
modelled exactly on an ordered field with a floor. -/
def pyRoundToInt {α : Type} [LinearOrderedField α] [FloorRing α] (x : α) : ℤ :=
  let f := ⌊x⌋
  let r := x - (f : α)
  if r < 1/2 then f
  else if 1/2 < r then f + 1
  else if f % 2 = 0 then f else f + 1

/-- Python `round(x, n)`: round half to even at `n` decimal places.
`p` is `10 ^ n`, passed explicitly (e.g. `1000` for `round(x, 3)`). -/
def pyRoundTo {α : Type} [LinearOrderedField α] [FloorRing α] (p : α) (x : α) : α :=
  ((pyRoundToInt (x * p) : α)) / p

/-- Python `int(x)` on a float: truncation towards zero. -/
def pyTrunc {α : Type} [LinearOrderedField α] [FloorRing α] (x : α) : ℤ :=
  if 0 ≤ x then ⌊x⌋ else -⌊-x⌋

/-- Python `x or d` on an optional number: both `None` and `0` give `d`. -/
def pyOr {α : Type} [LinearOrderedField α] [DecidableEq α] (x : Option α) (d : α) : α :=
  match x with
  | none => d
  | some v => if v = 0 then d else v

section RoundingLemmas

variable {α : Type} [LinearOrderedField α] [FloorRing α]

/-- Rounding an integer value returns it unchanged. -/
lemma pyRoundToInt_intCast (z : ℤ) : pyRoundToInt ((z : α)) = z := by
  unfold pyRoundToInt
  rw [Int.floor_intCast]
  rw [if_pos]
  simp only [sub_self]
  norm_num

/-- Evaluation of `pyRoundToInt` when the fractional part is below one half. -/
lemma pyRoundToInt_of_lt_half (x : α) (z : ℤ) (h1 : (z : α) ≤ x)
    (h2 : x < (z : α) + 1/2) : pyRoundToInt x = z := by
  have hf : ⌊x⌋ = z := Int.floor_eq_iff.mpr ⟨h1, by linarith⟩
  unfold pyRoundToInt
  rw [hf, if_pos (by linarith)]

/-- Evaluation of `pyRoundToInt` when the fractional part is above one half. -/
lemma pyRoundToInt_of_gt_half (x : α) (z : ℤ) (h1 : (z : α) + 1/2 < x)
    (h2 : x < (z : α) + 1) : pyRoundToInt x = z + 1 := by
  have hf : ⌊x⌋ = z := Int.floor_eq_iff.mpr ⟨by linarith, h2⟩
  unfold pyRoundToInt
  rw [hf, if_neg (by linarith), if_pos (by linarith)]

/-- `pyRoundTo` fixes values that are exact multiples of the precision. -/
lemma pyRoundTo_of_int (p x : α) (z : ℤ) (h : x * p = (z : α)) :
    pyRoundTo p x = (z : α) / p := by
  unfold pyRoundTo
  rw [h, pyRoundToInt_intCast]

/-- Half-to-even rounding is monotone. -/
lemma pyRoundToInt_mono {x y : α} (h : x ≤ y) :
    pyRoundToInt x ≤ pyRoundToInt y := by
  have hf : ⌊x⌋ ≤ ⌊y⌋ := Int.floor_le_floor h
  have hx1 : (⌊x⌋ : α) ≤ x := Int.floor_le x
  have hx2 : x < ⌊x⌋ + 1 := Int.lt_floor_add_one x
  have hy1 : (⌊y⌋ : α) ≤ y := Int.floor_le y
  have hy2 : y < ⌊y⌋ + 1 := Int.lt_floor_add_one y
  rcases eq_or_lt_of_le hf with heq | hlt
  · simp only [pyRoundToInt, ← heq]
    have hxy : x - (⌊x⌋ : α) ≤ y - (⌊x⌋ : α) := by linarith
    split_ifs <;> first | omega | linarith
  · simp only [pyRoundToInt]
    have : ⌊x⌋ + 1 ≤ ⌊y⌋ := hlt
    split_ifs <;> omega

/-- `pyRoundTo` is monotone for a positive precision. -/
lemma pyRoundTo_mono (p : α) (hp : 0 < p) {x y : α} (h : x ≤ y) :
    pyRoundTo p x ≤ pyRoundTo p y := by
  unfold pyRoundTo
  have := pyRoundToInt_mono (mul_le_mul_of_nonneg_right h hp.le)
  exact div_le_div_of_nonneg_right (by exact_mod_cast this) hp.le

/-- Truncation of an integer value. -/
lemma pyTrunc_intCast (z : ℤ) : pyTrunc ((z : α)) = z := by
  unfold pyTrunc
  split_ifs with h
  · exact Int.floor_intCast z
  · rw [← Int.cast_neg, Int.floor_intCast]
    omega

/-- Truncation of a value at least one is at least one. -/
lemma one_le_pyTrunc {x : α} (h : 1 ≤ x) : 1 ≤ pyTrunc x := by
  unfold pyTrunc
  rw [if_pos (by linarith)]
  exact Int.le_floor.mpr (by exact_mod_cast h)

end RoundingLemmas

namespace Planning

/-! Embedding of `app/modules/planning/services/local_generator_service.py`.
The combinatorial enumeration step (`generate_action_sequences`, defined in
the absent module `holistic_planner.py`) is a parameter: `all_sequences`
stands for whatever list of candidate sequences it returns. -/

/-- Trade side of an action (`app.domain.value_objects.trade_side.TradeSide`). -/
inductive TradeSide where
  | buy
  | sell
deriving DecidableEq, Repr

/-- `ActionCandidate` from `app/modules/planning/domain/models.py`, restricted
to the fields the generator service reads (the remaining fields — name,
currency, reason, tags — are opaque strings copied through unchanged). -/
structure ActionCandidate where
  side : TradeSide
  symbol : String
  quantity : ℚ
  price : ℚ
  value_eur : ℚ
  priority : ℚ
deriving DecidableEq, Repr

/-- Feasibility settings carried by `GenerateSequencesRequest.feasibility`. -/
structure FeasibilitySettings where
  available_cash : ℚ
  transaction_cost_fixed : ℚ
  transaction_cost_percent : ℚ
  min_trade_value : ℚ
deriving DecidableEq, Repr

/-- `SequenceBatch` from `services/generator/models.py`, as populated by
`generate_sequences_batched`. -/
structure SequenceBatch where
  batch_number : ℕ
  sequences : List (List ActionCandidate)
  total_batches : ℕ
  more_available : Bool
deriving DecidableEq, Repr

/-- The accumulation loop of `_apply_feasibility_filter` (lines 117-136):
fold over the sequence accumulating `(cash_required, cash_generated)`. -/
def sequence_cash (feasibility : FeasibilitySettings)
    (sequence : List ActionCandidate) : ℚ × ℚ :=
  sequence.foldl
    (fun acc action =>
      let trade_cost := feasibility.transaction_cost_fixed +
        action.value_eur * feasibility.transaction_cost_percent
      match action.side with
      | TradeSide.buy => (acc.1 + (action.value_eur + trade_cost), acc.2)
      | TradeSide.sell => (acc.1, acc.2 + (action.value_eur - trade_cost)))
    (0, 0)

/-- The per-sequence acceptance test of `_apply_feasibility_filter`
(lines 138-146): net cash required at most available cash, and every
action at or above the minimum trade value. -/
def sequence_is_feasible (feasibility : FeasibilitySettings)
    (sequence : List ActionCandidate) : Bool :=
  let cash := sequence_cash feasibility sequence
  decide (cash.1 - cash.2 ≤ feasibility.available_cash) &&
    sequence.all (fun action =>
      decide (feasibility.min_trade_value ≤ action.value_eur))

/-- `LocalGeneratorService._apply_feasibility_filter` (lines 101-148):
keep exactly the sequences passing the acceptance test, in order. -/
def apply_feasibility_filter (sequences : List (List ActionCandidate))
    (feasibility : FeasibilitySettings) : List (List ActionCandidate) :=
  sequences.filter (sequence_is_feasible feasibility)

/-- The batching part of `LocalGeneratorService.generate_sequences_batched`
(lines 74-99): filter, compute `total_batches = max(1, ceil(len/batch))`,
then emit the slice `[k*batch : min((k+1)*batch, len)]` as batch `k`.
`all_sequences` is the output of the absent combinatorial enumerator. -/
def generate_sequences_batched (all_sequences : List (List ActionCandidate))
    (feasibility : FeasibilitySettings) (batch_size : ℕ) : List SequenceBatch :=
  let feasible_sequences := apply_feasibility_filter all_sequences feasibility
  let total_batches := max 1 ((feasible_sequences.length + batch_size - 1) / batch_size)
  (List.range total_batches).map (fun batch_number =>
    { batch_number := batch_number
      sequences := (feasible_sequences.drop (batch_number * batch_size)).take batch_size
      total_batches := total_batches
      more_available := decide (batch_number < total_batches - 1) })

/-- Splitting a list into `t` consecutive `b`-sized slices recovers the list,
provided `t * b` covers its length. -/
lemma flatten_slices {α : Type} :
    ∀ (t : ℕ) (b : ℕ) (l : List α), l.length ≤ t * b →
      ((List.range t).map (fun k => (l.drop (k * b)).take b)).flatten = l := by
  intro t
  induction t with
  | zero =>
    intro b l h
    have : l = [] := List.eq_nil_of_length_eq_zero (by simpa using h)
    simp [this]
  | succ t ih =>
    intro b l h
    rw [List.range_succ_eq_map, List.map_cons, List.map_map, List.flatten_cons]
    have hdrop : ∀ k : ℕ, l.drop (Nat.succ k * b) = (l.drop b).drop (k * b) := by
      intro k
      rw [List.drop_drop]
      congr 1
      rw [Nat.succ_mul]
      ring
    have hmap :
        (List.range t).map ((fun k => (l.drop (k * b)).take b) ∘ Nat.succ) =
        (List.range t).map (fun k => ((l.drop b).drop (k * b)).take b) := by
      apply List.map_congr_left
      intro k _
      simp only [Function.comp]
      rw [hdrop k]
    rw [hmap, ih b (l.drop b) (by simp [Nat.succ_mul] at h ⊢; omega)]
    simp only [Nat.zero_mul, List.drop_zero]
    exact List.take_append_drop b l

/-- The batch count `max 1 ((n + b - 1) / b)` times `b` covers `n`. -/
lemma le_batch_count_mul (n b : ℕ) (hb : 1 ≤ b) :
    n ≤ (max 1 ((n + b - 1) / b)) * b := by
  rcases Nat.eq_zero_or_pos n with h0 | h1
  · subst h0; exact Nat.zero_le _
  · have h2 : (n + b - 1) % b < b := Nat.mod_lt _ (by omega)
    have h3 : b * ((n + b - 1) / b) + (n + b - 1) % b = n + b - 1 :=
      Nat.div_add_mod _ _
    have hq : 1 ≤ (n + b - 1) / b := (Nat.one_le_div_iff (by omega)).mpr (by omega)
    rw [Nat.max_eq_right hq, Nat.mul_comm]
    omega

/-- The concatenation, in order, of the `sequences` fields of all emitted
batches is exactly the feasibility-filtered list. -/
lemma flatten_batches (all_sequences : List (List ActionCandidate))
    (feasibility : FeasibilitySettings) (batch_size : ℕ) (hb : 1 ≤ batch_size) :
    ((generate_sequences_batched all_sequences feasibility batch_size).map
        SequenceBatch.sequences).flatten =
      apply_feasibility_filter all_sequences feasibility := by
  unfold generate_sequences_batched
  rw [List.map_map]
  exact flatten_slices _ _ _
    (le_batch_count_mul (apply_feasibility_filter all_sequences feasibility).length
      batch_size hb)

/-- Every sequence inside an emitted batch is an element of the
feasibility-filtered list. -/
lemma mem_batch_mem_filtered {all_sequences : List (List ActionCandidate)}
    {feasibility : FeasibilitySettings} {batch_size : ℕ} {batch : SequenceBatch}
    {sequence : List ActionCandidate}
    (hbatch : batch ∈ generate_sequences_batched all_sequences feasibility batch_size)
    (hseq : sequence ∈ batch.sequences) :
    sequence ∈ apply_feasibility_filter all_sequences feasibility := by
  unfold generate_sequences_batched at hbatch
  rcases List.mem_map.mp hbatch with ⟨k, _, hk⟩
  subst hk
  simp only at hseq
  exact ((List.take_sublist _ _).trans (List.drop_sublist _ _)).mem hseq

end Planning

namespace Scorer

/-! Embedding of the score-combination logic of
`app/domain/scoring/stock_scorer.py` (`calculate_stock_score`, lines 98-186).
The upstream component calculations (`calculate_quality_score`,
`calculate_opportunity_score`, `calculate_analyst_score`,
`calculate_allocation_fit_score`, `calculate_volatility`) are parameters:
the function takes their optional results as arguments, exactly as the
combination code consumes them.  `opportunity.py`, `analyst.py` (network
bound) and `allocation.py` are external to the verified core. -/

/-- `QualityScore` fields as constructed by the scorer (`models.py` is absent;
the fields are those written at `stock_scorer.py` lines 145-160). -/
structure QualityScore where
  total_return_score : ℚ
  consistency_score : ℚ
  financial_strength_score : ℚ
  dividend_bonus : ℚ
  sharpe_ratio_score : ℚ
  max_drawdown_score : ℚ
  total : ℚ
  cagr_5y : Option ℚ
  cagr_10y : Option ℚ
  total_return : Option ℚ
  dividend_yield : Option ℚ
  sharpe_ratio : Option ℚ
  max_drawdown : Option ℚ
  history_years : ℚ
deriving DecidableEq, Repr

/-- `OpportunityScore` fields (`stock_scorer.py` lines 162-169). -/
structure OpportunityScore where
  below_52w_high : ℚ
  ema_distance : ℚ
  pe_vs_historical : ℚ
  rsi_score : ℚ
  bollinger_score : ℚ
  total : ℚ
deriving DecidableEq, Repr

/-- `AnalystScore` fields (`stock_scorer.py` lines 171-175). -/
structure AnalystScore where
  recommendation_score : ℚ
  target_score : ℚ
  total : ℚ
deriving DecidableEq, Repr

/-- `AllocationFitScore`: only its `total` is read by the scorer
(`stock_scorer.py` line 114); sub-terms live in the absent `allocation.py`. -/
structure AllocationFitScore where
  total : ℚ
deriving DecidableEq, Repr

/-- `CalculatedStockScore` as returned at `stock_scorer.py` lines 177-186.
`calculated_at` (a wall-clock timestamp) is omitted. -/
structure CalculatedStockScore where
  symbol : String
  quality : QualityScore
  opportunity : OpportunityScore
  analyst : AnalystScore
  allocation_fit : Option AllocationFitScore
  total_score : ℚ
  volatility : Option ℚ
deriving DecidableEq, Repr

/-- Scoring weights (`constants.py` is absent; values are stated in the
module doc comment of `stock_scorer.py` and in spec §4.1: 35/35/15/15,
base 85%). Modelled from the spec. -/
def SCORE_WEIGHT_QUALITY : ℚ := 35/100

/-- Opportunity weight, 35%. Modelled from the spec. -/
def SCORE_WEIGHT_OPPORTUNITY : ℚ := 35/100

/-- Analyst weight, 15%. Modelled from the spec. -/
def SCORE_WEIGHT_ANALYST : ℚ := 15/100

/-- Allocation-fit weight, 15%. Modelled from the spec. -/
def SCORE_WEIGHT_ALLOCATION_FIT : ℚ := 15/100

/-- Base weight for renormalisation without allocation fit, 85%.
Modelled from the spec. -/
def SCORE_WEIGHT_BASE : ℚ := 85/100

/-- The neutral `QualityScore` built at `stock_scorer.py` lines 145-160
when the quality calculation returned nothing. -/
def neutral_quality : QualityScore :=
  { total_return_score := 1/2
    consistency_score := 1/2
    financial_strength_score := 1/2
    dividend_bonus := 0
    sharpe_ratio_score := 1/2
    max_drawdown_score := 1/2
    total := 1/2
    cagr_5y := none
    cagr_10y := none
    total_return := none
    dividend_yield := none
    sharpe_ratio := none
    max_drawdown := none
    history_years := 0 }

/-- The neutral `OpportunityScore` built at lines 162-169. -/
def neutral_opportunity : OpportunityScore :=
  { below_52w_high := 1/2
    ema_distance := 1/2
    pe_vs_historical := 1/2
    rsi_score := 1/2
    bollinger_score := 1/2
    total := 1/2 }

/-- The neutral `AnalystScore` built at lines 171-175. -/
def neutral_analyst : AnalystScore :=
  { recommendation_score := 1/2
    target_score := 1/2
    total := 1/2 }

/-- `calculate_stock_score` combination logic (lines 98-186): missing
component totals default to `0.5`; with an allocation-fit result the total
is the 4-term weighted blend, otherwise the 3-term blend renormalised by
`0.85`; the stored total is rounded to 3 decimals; missing components are
replaced by full neutral score objects; a zero or missing volatility is
stored as `None` (Python truthiness of `0.0`), otherwise rounded to 4
decimals.  The Python signature allows returning `None` but the body always
returns a score, hence the `Option` result is always `some`. -/
def calculate_stock_score (symbol : String)
    (quality : Option QualityScore) (opportunity : Option OpportunityScore)
    (analyst : Option AnalystScore) (allocation_fit : Option AllocationFitScore)
    (volatility : Option ℚ) : Option CalculatedStockScore :=
  let quality_total := match quality with
    | some q => q.total
    | none => 1/2
  let opportunity_total := match opportunity with
    | some o => o.total
    | none => 1/2
  let analyst_total := match analyst with
    | some a => a.total
    | none => 1/2
  let total_score := match allocation_fit with
    | some af =>
        quality_total * SCORE_WEIGHT_QUALITY +
        opportunity_total * SCORE_WEIGHT_OPPORTUNITY +
        analyst_total * SCORE_WEIGHT_ANALYST +
        af.total * SCORE_WEIGHT_ALLOCATION_FIT
    | none =>
        (quality_total * SCORE_WEIGHT_QUALITY +
         opportunity_total * SCORE_WEIGHT_OPPORTUNITY +
         analyst_total * SCORE_WEIGHT_ANALYST) / SCORE_WEIGHT_BASE
  some
    { symbol := symbol
      quality := quality.getD neutral_quality
      opportunity := opportunity.getD neutral_opportunity
      analyst := analyst.getD neutral_analyst
      allocation_fit := allocation_fit
      total_score := pyRoundTo 1000 total_score
      volatility := match volatility with
        | some v => if v = 0 then none else some (pyRoundTo 10000 v)
        | none => none }

/-- The spec's formula for the total score (§4.1), written from the spec's
words for comparison with the code: 4-term blend when allocation fit is
available, otherwise the 3-term blend divided by `0.85`. -/
def spec_total_score (quality_total opportunity_total analyst_total : ℚ)
    (allocation_fit_total : Option ℚ) : ℚ :=
  match allocation_fit_total with
  | some af => 35/100 * quality_total + 35/100 * opportunity_total +
      15/100 * analyst_total + 15/100 * af
  | none => (35/100 * quality_total + 35/100 * opportunity_total +
      15/100 * analyst_total) / (85/100)

end Scorer

namespace Allocator

/-! Embedding of `app/services/allocator.py` and of the allocation loop of
`RebalancingService.calculate_rebalance_trades`
(`app/application/services/rebalancing_service.py`, lines 218-456).
The configuration object `app.config.settings` is absent from the source
tree; its fields are a parameter record.  The repository/scoring/priority
stage of `calculate_rebalance_trades` (lines 243-352) depends on absent
modules (`priority_calculator.py`, repositories, the network price feed),
so the ranked candidate list and each candidate's looked-up price are
parameters of the embedding. -/

/-- Position-sizing constants from the absent `app/domain/constants.py`;
values as stated in spec §4.3 (clamps `[0.8,1.2]`, `[0.9,1.1]`, volatility
floor `0.5`, size cap `1.5×`). Modelled from the spec. -/
def MIN_CONVICTION_MULTIPLIER : ℚ := 8/10

/-- Upper conviction clamp, 1.2. Modelled from the spec. -/
def MAX_CONVICTION_MULTIPLIER : ℚ := 12/10

/-- Lower priority clamp, 0.9. Modelled from the spec. -/
def MIN_PRIORITY_MULTIPLIER : ℚ := 9/10

/-- Upper priority clamp, 1.1. Modelled from the spec. -/
def MAX_PRIORITY_MULTIPLIER : ℚ := 11/10

/-- Volatility multiplier floor, 0.5. Modelled from the spec. -/
def MIN_VOLATILITY_MULTIPLIER : ℚ := 1/2

/-- Position size cap multiplier, 1.5. Modelled from the spec. -/
def MAX_POSITION_SIZE_MULTIPLIER : ℚ := 3/2

/-- `StockPriority` (from the absent `app/domain/models.py`), restricted to
the fields `calculate_position_size` reads. -/
structure StockPriority where
  stock_score : ℚ
  combined_priority : ℚ
  volatility : Option ℚ
deriving DecidableEq, Repr

/-- `calculate_position_size` (`allocator.py` lines 39-70), statement by
statement: three individually clamped multipliers, then the product of base
size and multipliers clamped to `[min_size, base_size * 1.5]`. -/
def calculate_position_size (candidate : StockPriority)
    (base_size min_size : ℚ) : ℚ :=
  let conviction_mult₀ := MIN_CONVICTION_MULTIPLIER + (candidate.stock_score - 1/2) * (8/10)
  let conviction_mult := max MIN_CONVICTION_MULTIPLIER
    (min MAX_CONVICTION_MULTIPLIER conviction_mult₀)
  let priority_mult₀ := MIN_PRIORITY_MULTIPLIER + (candidate.combined_priority / 3) * (2/10)
  let priority_mult := max MIN_PRIORITY_MULTIPLIER
    (min MAX_PRIORITY_MULTIPLIER priority_mult₀)
  let vol_mult := match candidate.volatility with
    | some v => max MIN_VOLATILITY_MULTIPLIER (1 - (v - 15/100) * (1/2))
    | none => 1
  let size := base_size * conviction_mult * priority_mult * vol_mult
  max min_size (min size (base_size * MAX_POSITION_SIZE_MULTIPLIER))

/-- The spec's position-size formula (§4.3), written from the spec's words
for comparison with the code. -/
def spec_position_size (stock_score combined_priority : ℚ)
    (volatility : Option ℚ) (base_size min_size : ℚ) : ℚ :=
  let clamp : ℚ → ℚ → ℚ → ℚ := fun lo hi x => max lo (min hi x)
  let conviction_mult := clamp (8/10) (12/10) (8/10 + (stock_score - 1/2) * (8/10))
  let priority_mult := clamp (9/10) (11/10) (9/10 + (combined_priority / 3) * (2/10))
  let volatility_mult := match volatility with
    | none => 1
    | some v => max (1/2) (1 - (v - 15/100) * (1/2))
  clamp min_size (base_size * (3/2))
    (base_size * conviction_mult * priority_mult * volatility_mult)

/-- Configuration fields read by the rebalancing path (`app.config.settings`
is absent from the source tree). Modelled from the spec (§6 configuration
surface). -/
structure Settings where
  min_cash_threshold : ℚ
  min_trade_size : ℚ
  max_trades_per_cycle : ℤ
deriving DecidableEq, Repr

/-- `get_max_trades` (`allocator.py` lines 73-88): `0` below the minimum
trade size, else `min(max_trades_per_cycle, int(cash / min_trade_size))`. -/
def get_max_trades (s : Settings) (cash : ℚ) : ℤ :=
  if cash < s.min_trade_size then 0
  else min s.max_trades_per_cycle (pyTrunc (cash / s.min_trade_size))

/-- A ranked candidate as consumed by the allocation loop: the fields of a
`PriorityResult` row used at lines 361-448, together with the price the
Yahoo lookup would return for it (`None` models a failed lookup; the loop
treats a non-positive price the same way). -/
structure RankedCandidate where
  symbol : String
  stock_score : ℚ
  combined_priority : ℚ
  volatility : Option ℚ
  min_lot : ℤ
  price : Option ℚ
deriving DecidableEq, Repr

/-- `TradeRecommendation` fields populated by the loop (the `reason` string
is omitted). -/
structure TradeRecommendation where
  symbol : String
  quantity : ℤ
  estimated_price : ℚ
  estimated_value : ℚ
deriving DecidableEq, Repr

/-- The allocation loop of `calculate_rebalance_trades` (lines 358-448):
stop when remaining cash drops below the minimum trade size; skip a
candidate with no valid price, with a dynamic size below the minimum, or
whose single-lot cost exceeds its allotted amount; otherwise emit a
recommendation for `int(invest/lot_cost)` whole lots and decrement the
remaining cash by the unrounded trade value. -/
def allocation_loop (s : Settings) (base_trade_size : ℚ) :
    List RankedCandidate → ℚ → List TradeRecommendation
  | [], _ => []
  | candidate :: rest, remaining_cash =>
    if remaining_cash < s.min_trade_size then []
    else
      match candidate.price with
      | none => allocation_loop s base_trade_size rest remaining_cash
      | some price =>
        if price ≤ 0 then allocation_loop s base_trade_size rest remaining_cash
        else
          let dynamic_size := calculate_position_size
            { stock_score := candidate.stock_score
              combined_priority := candidate.combined_priority
              volatility := candidate.volatility }
            base_trade_size s.min_trade_size
          let invest_amount := min dynamic_size remaining_cash
          if invest_amount < s.min_trade_size then
            allocation_loop s base_trade_size rest remaining_cash
          else
            let lot_cost := (candidate.min_lot : ℚ) * price
            if invest_amount < lot_cost then
              allocation_loop s base_trade_size rest remaining_cash
            else
              let num_lots := pyTrunc (invest_amount / lot_cost)
              let qty := num_lots * candidate.min_lot
              if qty ≤ 0 then allocation_loop s base_trade_size rest remaining_cash
              else
                let actual_value := (qty : ℚ) * price
                { symbol := candidate.symbol
                  quantity := qty
                  estimated_price := pyRoundTo 100 price
                  estimated_value := pyRoundTo 100 actual_value } ::
                  allocation_loop s base_trade_size rest (remaining_cash - actual_value)

/-- `RebalancingService.calculate_rebalance_trades` (lines 218-456) with the
scoring/ranking stage abstracted into the `ranked` parameter (its result,
`priority_results`): return empty below the cash threshold, when the
maximum-trades computation yields zero, or when no candidate qualifies;
otherwise run the allocation loop over the top `max_trades` candidates with
`base_trade_size = available_cash / len(selected)`. -/
def calculate_rebalance_trades (s : Settings) (available_cash : ℚ)
    (ranked : List RankedCandidate) : List TradeRecommendation :=
  if available_cash < s.min_cash_threshold then []
  else if get_max_trades s available_cash = 0 then []
  else if ranked = [] then []
  else
    let selected := ranked.take (get_max_trades s available_cash).toNat
    let base_trade_size := available_cash / (selected.length : ℚ)
    allocation_loop s base_trade_size selected available_cash

end Allocator

namespace Quality

/-! Embedding of `app/domain/scoring/quality.py` over `ℝ` (the formulas use
`math.exp` and real exponentiation).  The sharpe/drawdown metric calculators
live in the absent `technical.py` and are parameters; the bell-curve sigmas
and the dividend-bonus tier values live in the absent `constants.py` and are
collected in a parameter record, while the constants whose values the source
docstrings and the spec state are fixed below. -/

/-- A monthly price row: the code reads `row.get("avg_adj_close")`, which may
be absent. -/
structure MonthlyPrice where
  avg_adj_close : Option ℝ

/-- A daily price row: the code reads `row["close"]`. -/
structure DailyPrice where
  close : ℝ

/-- Yahoo fundamentals fields read by the quality scorer; every field may be
absent. -/
structure Fundamentals where
  profit_margin : Option ℝ
  debt_to_equity : Option ℝ
  current_ratio : Option ℝ
  dividend_yield : Option ℝ

/-- `QualityScore` as constructed at `quality.py` lines 326-341. -/
structure QualityScore where
  total_return_score : ℝ
  consistency_score : ℝ
  financial_strength_score : ℝ
  dividend_bonus : ℝ
  sharpe_ratio_score : ℝ
  max_drawdown_score : ℝ
  total : ℝ
  cagr_5y : Option ℝ
  cagr_10y : Option ℝ
  total_return : Option ℝ
  dividend_yield : Option ℝ
  sharpe_ratio : Option ℝ
  max_drawdown : Option ℝ
  history_years : ℝ

/-- Constants from the absent `constants.py` whose values neither the spec
nor the docstrings pin down: the asymmetric bell-curve sigmas and the three
dividend-bonus tier values. Modelled from the spec as parameters. -/
structure QualityCfg where
  sigma_left : ℝ
  sigma_right : ℝ
  low_bonus : ℝ
  mid_bonus : ℝ
  high_bonus : ℝ

/-- Bell-curve floor, 0.15 (spec §4.1 and `score_total_return` docstring).
Modelled from the spec. -/
noncomputable def BELL_CURVE_FLOOR : ℝ := 15/100

/-- Default bell-curve peak, 11% (docstring). Modelled from the spec. -/
noncomputable def OPTIMAL_CAGR : ℝ := 11/100

/-- Minimum months of history, 24 (spec §3 QualityScore row). Modelled from
the spec. -/
def MIN_MONTHS_FOR_CAGR : ℕ := 24

/-- High-dividend threshold, 6% (docstring "6%+ yield"). Modelled from the
spec. -/
noncomputable def HIGH_DIVIDEND_THRESHOLD : ℝ := 6/100

/-- Mid-dividend threshold, 3% (docstring "3-6% yield"). Modelled from the
spec. -/
noncomputable def MID_DIVIDEND_THRESHOLD : ℝ := 3/100

/-- Quality component weights 40/20/20/10/10% (module docstring of
`quality.py`). Modelled from the spec. -/
noncomputable def QUALITY_WEIGHT_TOTAL_RETURN : ℝ := 40/100

/-- Consistency weight, 20%. Modelled from the spec. -/
noncomputable def QUALITY_WEIGHT_CONSISTENCY : ℝ := 20/100

/-- Financial-strength weight, 20%. Modelled from the spec. -/
noncomputable def QUALITY_WEIGHT_FINANCIAL_STRENGTH : ℝ := 20/100

/-- Sharpe weight, 10%. Modelled from the spec. -/
noncomputable def QUALITY_WEIGHT_SHARPE : ℝ := 10/100

/-- Drawdown weight, 10%. Modelled from the spec. -/
noncomputable def QUALITY_WEIGHT_MAX_DRAWDOWN : ℝ := 10/100

/-- Sharpe thresholds 2.0 / 1.0 / 0.5 (docstrings of
`calculate_sharpe_score`). Modelled from the spec. -/
noncomputable def SHARPE_EXCELLENT : ℝ := 2

/-- Sharpe "good" threshold, 1.0. Modelled from the spec. -/
noncomputable def SHARPE_GOOD : ℝ := 1

/-- Sharpe "ok" threshold, 0.5. Modelled from the spec. -/
noncomputable def SHARPE_OK : ℝ := 1/2

/-- Drawdown thresholds 10/20/30/50% (docstrings of
`calculate_drawdown_score`). Modelled from the spec. -/
noncomputable def DRAWDOWN_EXCELLENT : ℝ := 10/100

/-- Drawdown "good" threshold, 20%. Modelled from the spec. -/
noncomputable def DRAWDOWN_GOOD : ℝ := 20/100

/-- Drawdown "ok" threshold, 30%. Modelled from the spec. -/
noncomputable def DRAWDOWN_OK : ℝ := 30/100

/-- Drawdown "poor" threshold, 50%. Modelled from the spec. -/
noncomputable def DRAWDOWN_POOR : ℝ := 50/100

/-- `score_total_return` (`quality.py` lines 52-79): the floor for
non-positive returns, otherwise the asymmetric Gaussian
`floor + exp(-(x-peak)^2 / (2 sigma^2)) * (1 - floor)` with the left sigma
strictly below the peak and the right sigma at or above it. -/
noncomputable def score_total_return (cfg : QualityCfg)
    (total_return : ℝ) (target_annual_return : ℝ) : ℝ :=
  let peak := target_annual_return
  if total_return ≤ 0 then BELL_CURVE_FLOOR
  else
    let sigma := if total_return < peak then cfg.sigma_left else cfg.sigma_right
    let raw_score := Real.exp (-((total_return - peak) ^ 2) / (2 * sigma ^ 2))
    BELL_CURVE_FLOOR + raw_score * (1 - BELL_CURVE_FLOOR)

/-- `calculate_dividend_bonus` (lines 82-100); Python's
`if not dividend_yield or dividend_yield <= 0` collapses to the `≤ 0` test
since `0.0` is falsy. -/
noncomputable def calculate_dividend_bonus (cfg : QualityCfg)
    (dividend_yield : Option ℝ) : ℝ :=
  match dividend_yield with
  | none => 0
  | some d =>
    if d ≤ 0 then 0
    else if HIGH_DIVIDEND_THRESHOLD ≤ d then cfg.high_bonus
    else if MID_DIVIDEND_THRESHOLD ≤ d then cfg.mid_bonus
    else cfg.low_bonus

/-- `calculate_cagr` (lines 103-134).  All call sites pass `months ≥ 24`, so
the `use_months = 0` quirk of Python's `prices[-0:]` never arises; the
empty-slice index error cannot arise either, and the model returns `none`
where the code guards `not start_price or not end_price or start_price <= 0`
(a missing or zero price).  The real-exponent power is `Real.rpow`; in the
exact real semantics the guarded-against `ZeroDivisionError` cannot occur. -/
noncomputable def calculate_cagr (prices : List MonthlyPrice) (months : ℕ) :
    Option ℝ :=
  if prices.length < MIN_MONTHS_FOR_CAGR then none
  else
    let use_months := min months prices.length
    let price_slice := prices.drop (prices.length - use_months)
    match price_slice.head?.bind MonthlyPrice.avg_adj_close,
      price_slice.getLast?.bind MonthlyPrice.avg_adj_close with
    | some start_price, some end_price =>
      if start_price = 0 ∨ end_price = 0 ∨ start_price ≤ 0 then none
      else
        let years := (use_months : ℝ) / 12
        if years < 1/4 then some (end_price / start_price - 1)
        else some ((end_price / start_price) ^ (1 / years) - 1)
    | _, _ => none

/-- `calculate_consistency_score` (lines 137-160). -/
noncomputable def calculate_consistency_score (cagr_5y : ℝ)
    (cagr_10y : Option ℝ) : ℝ :=
  match cagr_10y with
  | none => 6/10
  | some c10 =>
    let diff := |cagr_5y - c10|
    if diff < 2/100 then 1
    else if diff < 5/100 then 8/10
    else max (4/10) (1 - diff * 4)

/-- `calculate_financial_strength_score` (lines 163-200); the `or` defaults
(`margin or 0`, `debt_to_equity or 50`, `current_ratio or 1`) are Python
truthiness, modelled by `pyOr`. -/
noncomputable def calculate_financial_strength_score
    (fundamentals : Option Fundamentals) : ℝ :=
  match fundamentals with
  | none => 1/2
  | some f =>
    let margin := pyOr f.profit_margin 0
    let margin_score :=
      if 0 ≤ margin then min 1 (1/2 + margin * (25/10))
      else max 0 (1/2 + margin * 2)
    let de := min 200 (pyOr f.debt_to_equity 50)
    let de_score := max 0 (1 - de / 200)
    let cr := min 3 (pyOr f.current_ratio 1)
    let cr_score := min 1 (cr / 2)
    margin_score * (40/100) + de_score * (30/100) + cr_score * (30/100)

/-- `calculate_sharpe_score` (lines 203-227). -/
noncomputable def calculate_sharpe_score (sharpe : Option ℝ) : ℝ :=
  match sharpe with
  | none => 1/2
  | some sr =>
    if SHARPE_EXCELLENT ≤ sr then 1
    else if SHARPE_GOOD ≤ sr then 7/10 + (sr - SHARPE_GOOD) * (3/10)
    else if SHARPE_OK ≤ sr then 4/10 + (sr - SHARPE_OK) * (6/10)
    else if 0 ≤ sr then sr * (8/10)
    else 0

/-- `calculate_drawdown_score` (lines 230-256). -/
noncomputable def calculate_drawdown_score (max_drawdown : Option ℝ) : ℝ :=
  match max_drawdown with
  | none => 1/2
  | some md =>
    let dd_pct := |md|
    if dd_pct ≤ DRAWDOWN_EXCELLENT then 1
    else if dd_pct ≤ DRAWDOWN_GOOD then 8/10 + (DRAWDOWN_GOOD - dd_pct) * 2
    else if dd_pct ≤ DRAWDOWN_OK then 6/10 + (DRAWDOWN_OK - dd_pct) * 2
    else if dd_pct ≤ DRAWDOWN_POOR then 2/10 + (DRAWDOWN_POOR - dd_pct) * 2
    else max 0 (2/10 - (dd_pct - DRAWDOWN_POOR))

/-- Python `round(v, n) if v else None` on an optional float: `None` and
`0.0` give `None`, anything else is rounded. -/
noncomputable def pyOptRound (p : ℝ) (x : Option ℝ) : Option ℝ :=
  match x with
  | none => none
  | some v => if v = 0 then none else some (pyRoundTo p v)

/-- `calculate_quality_score` (lines 259-341), statement by statement.
`sharpe_calc` and `drawdown_calc` stand for `calculate_sharpe_ratio` and
`calculate_max_drawdown` from the absent `technical.py`; every theorem below
holds for all choices of these calculators. -/
noncomputable def calculate_quality_score (cfg : QualityCfg)
    (sharpe_calc drawdown_calc : List ℝ → Option ℝ)
    (monthly_prices : List MonthlyPrice) (daily_prices : List DailyPrice)
    (fundamentals : Option Fundamentals) (target_annual_return : ℝ) :
    Option QualityScore :=
  if monthly_prices.length < MIN_MONTHS_FOR_CAGR then none
  else
    let history_years := (monthly_prices.length : ℝ) / 12
    let cagr_5y := match calculate_cagr monthly_prices 60 with
      | none => calculate_cagr monthly_prices monthly_prices.length
      | some c => some c
    let cagr_10y :=
      if 60 < monthly_prices.length then
        calculate_cagr monthly_prices monthly_prices.length
      else none
    let dividend_yield := fundamentals.bind Fundamentals.dividend_yield
    let total_return := pyOr cagr_5y 0 + pyOr dividend_yield 0
    let closes := daily_prices.map DailyPrice.close
    let sharpe_ratio :=
      if 50 ≤ daily_prices.length then sharpe_calc closes else none
    let max_drawdown :=
      if 50 ≤ daily_prices.length then drawdown_calc closes else none
    let total_return_score := score_total_return cfg total_return target_annual_return
    let consistency_score := calculate_consistency_score (pyOr cagr_5y 0) cagr_10y
    let financial_strength_score := calculate_financial_strength_score fundamentals
    let dividend_bonus := calculate_dividend_bonus cfg dividend_yield
    let sharpe_ratio_score := calculate_sharpe_score sharpe_ratio
    let max_drawdown_score := calculate_drawdown_score max_drawdown
    let total := min 1
      (total_return_score * QUALITY_WEIGHT_TOTAL_RETURN +
        consistency_score * QUALITY_WEIGHT_CONSISTENCY +
        financial_strength_score * QUALITY_WEIGHT_FINANCIAL_STRENGTH +
        sharpe_ratio_score * QUALITY_WEIGHT_SHARPE +
        max_drawdown_score * QUALITY_WEIGHT_MAX_DRAWDOWN +
        dividend_bonus)
    some
      { total_return_score := pyRoundTo 1000 total_return_score
        consistency_score := pyRoundTo 1000 consistency_score
        financial_strength_score := pyRoundTo 1000 financial_strength_score
        dividend_bonus := pyRoundTo 1000 dividend_bonus
        sharpe_ratio_score := pyRoundTo 1000 sharpe_ratio_score
        max_drawdown_score := pyRoundTo 1000 max_drawdown_score
        total := pyRoundTo 1000 total
        cagr_5y := pyOptRound 10000 cagr_5y
        cagr_10y := pyOptRound 10000 cagr_10y
        total_return := if total_return = 0 then none
          else some (pyRoundTo 10000 total_return)
        dividend_yield := pyOptRound 10000 dividend_yield
        sharpe_ratio := pyOptRound 10000 sharpe_ratio
        max_drawdown := pyOptRound 10000 max_drawdown
        history_years := pyRoundTo 10 history_years }

end Quality

namespace Planning

/-- The spec's `cash_required`: accumulated over BUY actions as
`value + (transaction_cost_fixed + value * transaction_cost_percent)`.
Written from the spec's words for comparison with the code's fold. -/
def cash_required (feasibility : FeasibilitySettings)
    (sequence : List ActionCandidate) : ℚ :=
  (sequence.map (fun action =>
    match action.side with
    | TradeSide.buy => action.value_eur + (feasibility.transaction_cost_fixed +
        action.value_eur * feasibility.transaction_cost_percent)
    | TradeSide.sell => 0)).sum

/-- The spec's `cash_generated`: accumulated over SELL actions as
`value - (transaction_cost_fixed + value * transaction_cost_percent)`.
Written from the spec's words for comparison with the code's fold. -/
def cash_generated (feasibility : FeasibilitySettings)
    (sequence : List ActionCandidate) : ℚ :=
  (sequence.map (fun action =>
    match action.side with
    | TradeSide.buy => 0
    | TradeSide.sell => action.value_eur - (feasibility.transaction_cost_fixed +
        action.value_eur * feasibility.transaction_cost_percent))).sum

/-- The code's accumulation fold computes exactly the spec's two sums. -/
lemma sequence_cash_eq (feasibility : FeasibilitySettings)
    (sequence : List ActionCandidate) :
    sequence_cash feasibility sequence =
      (cash_required feasibility sequence, cash_generated feasibility sequence) := by
  suffices h : ∀ acc : ℚ × ℚ, sequence.foldl
      (fun acc action =>
        let trade_cost := feasibility.transaction_cost_fixed +
          action.value_eur * feasibility.transaction_cost_percent
        match action.side with
        | TradeSide.buy => (acc.1 + (action.value_eur + trade_cost), acc.2)
        | TradeSide.sell => (acc.1, acc.2 + (action.value_eur - trade_cost)))
      acc =
      (acc.1 + cash_required feasibility sequence,
        acc.2 + cash_generated feasibility sequence) by
    have := h (0, 0)
    simpa [sequence_cash] using this
  induction sequence with
  | nil => intro acc; simp [cash_required, cash_generated]
  | cons action rest ih =>
    intro acc
    cases haction : action.side <;>
      simp [cash_required, cash_generated, List.foldl_cons, haction, ih] <;> ring

/-- Membership in the feasibility filter output characterised. -/
lemma mem_filter_iff (feasibility : FeasibilitySettings)
    (sequences : List (List ActionCandidate)) (sequence : List ActionCandidate) :
    sequence ∈ apply_feasibility_filter sequences feasibility ↔
      sequence ∈ sequences ∧
      cash_required feasibility sequence - cash_generated feasibility sequence ≤
        feasibility.available_cash ∧
      ∀ action ∈ sequence, feasibility.min_trade_value ≤ action.value_eur := by
  unfold apply_feasibility_filter
  rw [List.mem_filter]
  constructor
  · rintro ⟨hmem, hfeas⟩
    refine ⟨hmem, ?_, ?_⟩ <;>
      simp only [sequence_is_feasible, sequence_cash_eq, Bool.and_eq_true,
        decide_eq_true_eq, List.all_eq_true] at hfeas
    · exact hfeas.1
    · intro action ha
      exact hfeas.2 action ha
  · rintro ⟨hmem, hcash, hmin⟩
    refine ⟨hmem, ?_⟩
    simp only [sequence_is_feasible, sequence_cash_eq, Bool.and_eq_true,
      decide_eq_true_eq, List.all_eq_true]
    exact ⟨hcash, fun action ha => hmin action ha⟩

/-- C1: every ActionSequence inside every batch emitted by
`generate_sequences_batched` is one of the generated sequences, unchanged
(dropped whole or kept whole, never truncated), its net cash requirement
`cash_required - cash_generated` is at most the available cash, and every
action in it meets the minimum trade value. -/
theorem c1_emitted_sequences_feasible
    (all_sequences : List (List ActionCandidate))
    (feasibility : FeasibilitySettings) (batch_size : ℕ)
    (batch : SequenceBatch) (sequence : List ActionCandidate)
    (hbatch : batch ∈ generate_sequences_batched all_sequences feasibility batch_size)
    (hseq : sequence ∈ batch.sequences) :
    sequence ∈ all_sequences ∧
    cash_required feasibility sequence - cash_generated feasibility sequence ≤
      feasibility.available_cash ∧
    ∀ action ∈ sequence, feasibility.min_trade_value ≤ action.value_eur := by
  have h := mem_batch_mem_filtered hbatch hseq
  exact (mem_filter_iff feasibility all_sequences sequence).mp h

/-- Witness for C1 at a concrete input: one BUY of value 100 with fixed cost
1 and 1% percentage cost against 1000 of cash and a 10 minimum. -/
theorem c1_emitted_sequences_feasible_witness :
    ([(⟨TradeSide.buy, "A", 1, 100, 100, 1⟩ : ActionCandidate)] ∈
      [[(⟨TradeSide.buy, "A", 1, 100, 100, 1⟩ : ActionCandidate)]]) ∧
    cash_required ⟨1000, 0, 0, 10⟩
        [⟨TradeSide.buy, "A", 1, 100, 100, 1⟩] -
      cash_generated ⟨1000, 0, 0, 10⟩
        [⟨TradeSide.buy, "A", 1, 100, 100, 1⟩] ≤ 1000 ∧
    ∀ action ∈ [(⟨TradeSide.buy, "A", 1, 100, 100, 1⟩ : ActionCandidate)],
      (10 : ℚ) ≤ action.value_eur := by
  have hfeas : sequence_is_feasible ⟨1000, 0, 0, 10⟩
      [⟨TradeSide.buy, "A", 1, 100, 100, 1⟩] = true := by
    simp [sequence_is_feasible, sequence_cash]
    norm_num
  have hfilter : apply_feasibility_filter
      [[⟨TradeSide.buy, "A", 1, 100, 100, 1⟩]] ⟨1000, 0, 0, 10⟩ =
      [[⟨TradeSide.buy, "A", 1, 100, 100, 1⟩]] := by
    unfold apply_feasibility_filter
    rw [List.filter_cons_of_pos hfeas]
    rfl
  have hgen : generate_sequences_batched
      [[⟨TradeSide.buy, "A", 1, 100, 100, 1⟩]] ⟨1000, 0, 0, 10⟩ 1 =
      [⟨0, [[⟨TradeSide.buy, "A", 1, 100, 100, 1⟩]], 1, false⟩] := by
    unfold generate_sequences_batched
    rw [hfilter]
    rfl
  exact c1_emitted_sequences_feasible
    [[⟨TradeSide.buy, "A", 1, 100, 100, 1⟩]] ⟨1000, 0, 0, 10⟩ 1
    ⟨0, [[⟨TradeSide.buy, "A", 1, 100, 100, 1⟩]], 1, false⟩
    [⟨TradeSide.buy, "A", 1, 100, 100, 1⟩]
    (by rw [hgen]; exact List.mem_singleton.mpr rfl)
    (List.mem_singleton.mpr rfl)

/-- C10: shape of the batched stream: the number of emitted batches is the
code's `max(1, (n + b - 1) / b)` (characterised below as `max(1, ceil(n/b))`
by the two bounding conjuncts), their `sequences` fields concatenate in
order to the feasibility-filtered list, `batch_number` counts from 0,
`total_batches` is the same in every batch, `more_available` holds exactly
before the last batch, and an empty feasible set still yields exactly one
empty batch with `more_available = false`. -/
theorem c10_batch_stream_shape
    (all_sequences : List (List ActionCandidate))
    (feasibility : FeasibilitySettings) (batch_size : ℕ) (hb : 1 ≤ batch_size)
    (feasible : List (List ActionCandidate)) (batches : List SequenceBatch)
    (hfeas : feasible = apply_feasibility_filter all_sequences feasibility)
    (hbatches : batches = generate_sequences_batched all_sequences feasibility batch_size) :
    batches.length = max 1 ((feasible.length + batch_size - 1) / batch_size) ∧
    feasible.length ≤ batches.length * batch_size ∧
    (1 < batches.length → (batches.length - 1) * batch_size < feasible.length) ∧
    (batches.map SequenceBatch.sequences).flatten = feasible ∧
    (∀ i (h : i < batches.length),
      (batches.get ⟨i, h⟩).batch_number = i ∧
      (batches.get ⟨i, h⟩).total_batches = batches.length ∧
      ((batches.get ⟨i, h⟩).more_available = true ↔ i < batches.length - 1)) ∧
    (feasible.length = 0 →
      batches = [⟨0, [], 1, false⟩]) := by
  subst hfeas hbatches
  set F := apply_feasibility_filter all_sequences feasibility with hF
  have hlen : (generate_sequences_batched all_sequences feasibility batch_size).length =
      max 1 ((F.length + batch_size - 1) / batch_size) := by
    simp [generate_sequences_batched, hF]
  refine ⟨hlen, ?_, ?_, ?_, ?_, ?_⟩
  · rw [hlen]
    exact le_batch_count_mul F.length batch_size hb
  · intro h2
    rw [hlen] at h2 ⊢
    set q := (F.length + batch_size - 1) / batch_size with hq
    have hq2 : 2 ≤ q := by
      rcases max_choice 1 q with h | h <;> omega
    rw [Nat.max_eq_right (by omega)] at h2 ⊢
    have hdm : q * batch_size ≤ F.length + batch_size - 1 :=
      Nat.div_mul_le_self _ _
    have hsub : (q - 1) * batch_size = q * batch_size - batch_size := by
      rw [Nat.sub_mul, one_mul]
    have h5 : 2 * batch_size ≤ q * batch_size := Nat.mul_le_mul_right _ hq2
    omega
  · exact flatten_batches all_sequences feasibility batch_size hb
  · intro i h
    have hget : (generate_sequences_batched all_sequences feasibility batch_size).get
        ⟨i, h⟩ =
        { batch_number := i
          sequences := (F.drop (i * batch_size)).take batch_size
          total_batches := max 1 ((F.length + batch_size - 1) / batch_size)
          more_available :=
            decide (i < max 1 ((F.length + batch_size - 1) / batch_size) - 1) } := by
      simp [generate_sequences_batched, List.get_eq_getElem, hF]
    rw [hget, hlen]
    refine ⟨rfl, rfl, ?_⟩
    simp
  · intro h0
    have hnil : F = [] := List.eq_nil_of_length_eq_zero h0
    have hdiv : (batch_size - 1) / batch_size = 0 := Nat.div_eq_of_lt (by omega)
    simp [generate_sequences_batched, hF.symm, hnil, hdiv, List.range_succ]

/-- Witness for C10 at a concrete input: no feasible sequences, batch size 1. -/
theorem c10_batch_stream_shape_witness :
    (generate_sequences_batched [] ⟨0, 0, 0, 0⟩ 1).length =
      max 1 (((apply_feasibility_filter [] ⟨0, 0, 0, 0⟩).length + 1 - 1) / 1) ∧
    (apply_feasibility_filter [] ⟨0, 0, 0, 0⟩).length ≤
      (generate_sequences_batched [] ⟨0, 0, 0, 0⟩ 1).length * 1 ∧
    (1 < (generate_sequences_batched [] ⟨0, 0, 0, 0⟩ 1).length →
      ((generate_sequences_batched [] ⟨0, 0, 0, 0⟩ 1).length - 1) * 1 <
        (apply_feasibility_filter [] ⟨0, 0, 0, 0⟩).length) ∧
    ((generate_sequences_batched [] ⟨0, 0, 0, 0⟩ 1).map
        SequenceBatch.sequences).flatten = apply_feasibility_filter [] ⟨0, 0, 0, 0⟩ ∧
    (∀ i (h : i < (generate_sequences_batched [] ⟨0, 0, 0, 0⟩ 1).length),
      ((generate_sequences_batched [] ⟨0, 0, 0, 0⟩ 1).get ⟨i, h⟩).batch_number = i ∧
      ((generate_sequences_batched [] ⟨0, 0, 0, 0⟩ 1).get ⟨i, h⟩).total_batches =
        (generate_sequences_batched [] ⟨0, 0, 0, 0⟩ 1).length ∧
      (((generate_sequences_batched [] ⟨0, 0, 0, 0⟩ 1).get ⟨i, h⟩).more_available =
          true ↔
        i < (generate_sequences_batched [] ⟨0, 0, 0, 0⟩ 1).length - 1)) ∧
    ((apply_feasibility_filter [] ⟨0, 0, 0, 0⟩).length = 0 →
      generate_sequences_batched [] ⟨0, 0, 0, 0⟩ 1 =
        [⟨0, [], 1, false⟩]) :=
  c10_batch_stream_shape [] ⟨0, 0, 0, 0⟩ 1 (by decide)
    (apply_feasibility_filter [] ⟨0, 0, 0, 0⟩)
    (generate_sequences_batched [] ⟨0, 0, 0, 0⟩ 1) rfl rfl

end Planning

namespace Scorer

/-- The `total_score` field stored by `calculate_stock_score` is exactly the
spec's blend, rounded to three decimal places. Shared between the claims
about the Stock Scorer. -/
lemma calculate_stock_score_total (symbol : String)
    (quality : Option QualityScore) (opportunity : Option OpportunityScore)
    (analyst : Option AnalystScore) (allocation_fit : Option AllocationFitScore)
    (volatility : Option ℚ) :
    (calculate_stock_score symbol quality opportunity analyst allocation_fit
        volatility).map CalculatedStockScore.total_score =
      some (pyRoundTo 1000 (spec_total_score
        ((quality.map QualityScore.total).getD (1/2))
        ((opportunity.map OpportunityScore.total).getD (1/2))
        ((analyst.map AnalystScore.total).getD (1/2))
        (allocation_fit.map AllocationFitScore.total))) := by
  cases quality <;> cases opportunity <;> cases analyst <;> cases allocation_fit <;>
    · simp only [calculate_stock_score, spec_total_score, SCORE_WEIGHT_QUALITY,
        SCORE_WEIGHT_OPPORTUNITY, SCORE_WEIGHT_ANALYST, SCORE_WEIGHT_ALLOCATION_FIT,
        SCORE_WEIGHT_BASE, Option.map_some', Option.map_none', Option.getD_some,
        Option.getD_none, Option.some.injEq]
      congr 1
      ring_nf

/-- C2 (amended): the Stock Scorer's stored `total_score` equals the weighted
blend — `0.35*quality + 0.35*opportunity + 0.15*analyst + 0.15*allocation_fit`
with allocation fit, `(0.35*quality + 0.35*opportunity + 0.15*analyst) / 0.85`
without — rounded to three decimal places (Python's `round(_, 3)`); the
scenario quality = opportunity = analyst = 0.9 with no allocation fit yields
exactly 0.9, which rounding leaves unchanged. -/
theorem c2_total_score_is_rounded_blend :
    (∀ (symbol : String) (quality : Option QualityScore)
      (opportunity : Option OpportunityScore) (analyst : Option AnalystScore)
      (allocation_fit : Option AllocationFitScore) (volatility : Option ℚ),
      (calculate_stock_score symbol quality opportunity analyst allocation_fit
          volatility).map CalculatedStockScore.total_score =
        some (pyRoundTo 1000 (spec_total_score
          ((quality.map QualityScore.total).getD (1/2))
          ((opportunity.map OpportunityScore.total).getD (1/2))
          ((analyst.map AnalystScore.total).getD (1/2))
          (allocation_fit.map AllocationFitScore.total)))) ∧
    (calculate_stock_score "S"
        (some ⟨0, 0, 0, 0, 0, 0, 9/10, none, none, none, none, none, none, 0⟩)
        (some ⟨0, 0, 0, 0, 0, 9/10⟩) (some ⟨0, 0, 9/10⟩) none none).map
        CalculatedStockScore.total_score = some (9/10) := by
  constructor
  · exact calculate_stock_score_total
  · rw [calculate_stock_score_total]
    simp only [Option.map_some', Option.getD_some, Option.map_none']
    have hspec : spec_total_score (9/10) (9/10) (9/10) none = 9/10 := by
      simp only [spec_total_score]
      norm_num
    rw [hspec, pyRoundTo_of_int 1000 (9/10 : ℚ) 900 (by norm_num)]
    norm_num

/-- C2 counterexample: at quality total 0.333 (opportunity, analyst and
allocation fit all 0.5) the stored `total_score` is the rounded 0.442, not
the exact blend 0.44155 the claim asserts. -/
theorem c2_total_score_exact_blend_counterexample :
    (calculate_stock_score "S"
        (some ⟨0, 0, 0, 0, 0, 0, 333/1000, none, none, none, none, none, none, 0⟩)
        (some ⟨0, 0, 0, 0, 0, 1/2⟩) (some ⟨0, 0, 1/2⟩) (some ⟨1/2⟩) none).map
        CalculatedStockScore.total_score = some (221/500) ∧
    (221/500 : ℚ) ≠
      (333/1000) * (35/100) + (1/2) * (35/100) + (1/2) * (15/100) +
        (1/2) * (15/100) := by
  constructor
  · rw [calculate_stock_score_total]
    have hspec : spec_total_score (333/1000) (1/2) (1/2) (some (1/2)) =
        8831/20000 := by
      simp only [spec_total_score]
      norm_num
    simp only [Option.map_some', Option.getD_some, hspec]
    have hround : pyRoundToInt ((8831/20000 : ℚ) * 1000) = 442 := by
      have := pyRoundToInt_of_gt_half ((8831/20000 : ℚ) * 1000) 441
        (by norm_num) (by norm_num)
      simpa using this
    unfold pyRoundTo
    rw [hround]
    norm_num
  · norm_num

/-- C6: for every combination of present and missing component results the
Stock Scorer returns a defined score; a missing quality, opportunity or
analyst component contributes the neutral 0.5 to the weighted total and is
replaced by the full neutral component object in the result (the neutral
quality carrying dividend bonus 0). -/
theorem c6_missing_components_never_fail :
    ∀ (symbol : String) (quality : Option QualityScore)
      (opportunity : Option OpportunityScore) (analyst : Option AnalystScore)
      (allocation_fit : Option AllocationFitScore) (volatility : Option ℚ),
      ∃ s : CalculatedStockScore,
        calculate_stock_score symbol quality opportunity analyst allocation_fit
          volatility = some s ∧
        s.quality = quality.getD neutral_quality ∧
        s.opportunity = opportunity.getD neutral_opportunity ∧
        s.analyst = analyst.getD neutral_analyst ∧
        neutral_quality.dividend_bonus = 0 ∧
        neutral_quality.total = 1/2 ∧
        neutral_opportunity.total = 1/2 ∧
        neutral_analyst.total = 1/2 ∧
        s.total_score = pyRoundTo 1000 (spec_total_score
          ((quality.map QualityScore.total).getD (1/2))
          ((opportunity.map OpportunityScore.total).getD (1/2))
          ((analyst.map AnalystScore.total).getD (1/2))
          (allocation_fit.map AllocationFitScore.total)) := by
  intro symbol quality opportunity analyst allocation_fit volatility
  have h := calculate_stock_score_total symbol quality opportunity analyst
    allocation_fit volatility
  rcases hs : calculate_stock_score symbol quality opportunity analyst
      allocation_fit volatility with _ | s
  · rw [hs] at h
    exact absurd h (by simp)
  · rw [hs] at h
    simp only [Option.map_some', Option.some.injEq] at h
    refine ⟨s, rfl, ?_, ?_, ?_, rfl, rfl, rfl, rfl, h⟩ <;>
      · have := hs
        simp only [calculate_stock_score, Option.some.injEq] at this
        rw [← this]

end Scorer

namespace Allocator

/-- C3 (amended): the Position Sizer computes exactly the spec's clamp
formula; the output lies in `[min_size, 1.5 * base_size]` whenever that
interval is inhabited, i.e. when `min_size ≤ 1.5 * base_size` (when
`min_size` exceeds the cap the lower clamp wins and the result is
`min_size`, outside the interval). -/
theorem c3_position_size_formula_and_bounds
    (candidate : StockPriority) (base_size min_size : ℚ) :
    calculate_position_size candidate base_size min_size =
      spec_position_size candidate.stock_score candidate.combined_priority
        candidate.volatility base_size min_size ∧
    (min_size ≤ base_size * (3/2) →
      min_size ≤ calculate_position_size candidate base_size min_size ∧
      calculate_position_size candidate base_size min_size ≤
        base_size * (3/2)) := by
  constructor
  · cases hv : candidate.volatility <;>
      · simp only [calculate_position_size, spec_position_size,
          MIN_CONVICTION_MULTIPLIER, MAX_CONVICTION_MULTIPLIER,
          MIN_PRIORITY_MULTIPLIER, MAX_PRIORITY_MULTIPLIER,
          MIN_VOLATILITY_MULTIPLIER, MAX_POSITION_SIZE_MULTIPLIER, hv]
        rw [min_comm]
  · intro h
    unfold calculate_position_size
    constructor
    · exact le_max_left _ _
    · exact max_le (by simpa [MAX_POSITION_SIZE_MULTIPLIER] using h)
        ((min_le_right _ _).trans (by simp [MAX_POSITION_SIZE_MULTIPLIER]))

/-- Witness for C3 at a concrete input: a neutral candidate, base 100,
minimum 50. -/
theorem c3_position_size_witness :
    (50 : ℚ) ≤ 100 * (3/2) ∧
    ((50 : ℚ) ≤ calculate_position_size ⟨1/2, 0, none⟩ 100 50 ∧
      calculate_position_size ⟨1/2, 0, none⟩ 100 50 ≤ 100 * (3/2)) :=
  ⟨by norm_num,
    (c3_position_size_formula_and_bounds ⟨1/2, 0, none⟩ 100 50).2 (by norm_num)⟩

/-- C3 counterexample: with `min_size = 200` and `base_size = 100` the
output is 200, outside `[min_size, 1.5 * base_size] = [200, 150]`, refuting
the unconditional bound of the claim. -/
theorem c3_bounds_counterexample :
    ¬ ((200 : ℚ) ≤ calculate_position_size ⟨1/2, 0, none⟩ 100 200 ∧
      calculate_position_size ⟨1/2, 0, none⟩ 100 200 ≤ 100 * (3/2)) := by
  have h : calculate_position_size ⟨1/2, 0, none⟩ 100 200 = 200 := by
    norm_num [calculate_position_size, MIN_CONVICTION_MULTIPLIER,
      MAX_CONVICTION_MULTIPLIER, MIN_PRIORITY_MULTIPLIER,
      MAX_PRIORITY_MULTIPLIER, MIN_VOLATILITY_MULTIPLIER,
      MAX_POSITION_SIZE_MULTIPLIER, min_def, max_def]
  rw [h]
  norm_num

/-- C7: the Rebalancing Selector returns the empty list, for every ranked
candidate list (so before any ranking or allocation is consulted), whenever
the available cash is below the minimum cash threshold, and likewise
whenever it is below the minimum trade size (which forces
`get_max_trades = 0`); in particular cash 300 against a 400 minimum trade
size yields the empty list regardless of the threshold. -/
theorem c7_ineligible_returns_empty (s : Settings) (available_cash : ℚ)
    (ranked : List RankedCandidate) :
    (available_cash < s.min_cash_threshold →
      calculate_rebalance_trades s available_cash ranked = []) ∧
    (available_cash < s.min_trade_size →
      calculate_rebalance_trades s available_cash ranked = []) ∧
    (s.min_trade_size = 400 → calculate_rebalance_trades s 300 ranked = []) := by
  refine ⟨?_, ?_, ?_⟩
  · intro h
    unfold calculate_rebalance_trades
    rw [if_pos h]
  · intro h
    unfold calculate_rebalance_trades
    by_cases h1 : available_cash < s.min_cash_threshold
    · rw [if_pos h1]
    · rw [if_neg h1,
        if_pos (show get_max_trades s available_cash = 0 from by
          unfold get_max_trades
          rw [if_pos h])]
  · intro h400
    unfold calculate_rebalance_trades
    by_cases h1 : (300 : ℚ) < s.min_cash_threshold
    · rw [if_pos h1]
    · rw [if_neg h1,
        if_pos (show get_max_trades s 300 = 0 from by
          unfold get_max_trades
          rw [if_pos (by rw [h400]; norm_num)])]

/-- Witness for C7 at concrete inputs: cash 300 below a 500 threshold, and
cash 300 below a 400 minimum trade size with threshold 0. -/
theorem c7_ineligible_returns_empty_witness :
    calculate_rebalance_trades ⟨500, 400, 5⟩ 300 [] = [] ∧
    calculate_rebalance_trades ⟨0, 400, 5⟩ 300 [] = [] ∧
    calculate_rebalance_trades ⟨0, 400, 5⟩ 300 [] = [] :=
  ⟨(c7_ineligible_returns_empty ⟨500, 400, 5⟩ 300 []).1 (by norm_num),
    (c7_ineligible_returns_empty ⟨0, 400, 5⟩ 300 []).2.1 (by norm_num),
    (c7_ineligible_returns_empty ⟨0, 400, 5⟩ 300 []).2.2 rfl⟩

/-- Every recommendation emitted by the allocation loop buys a whole positive
number of lots: its quantity is `int(invest / lot_cost) * min_lot` for the
candidate it came from, with at least one lot affordable. -/
lemma allocation_loop_quantities (s : Settings) (base : ℚ) :
    ∀ (cands : List RankedCandidate) (cash : ℚ),
      (∀ c ∈ cands, 1 ≤ c.min_lot) →
      ∀ r ∈ allocation_loop s base cands cash,
        ∃ c ∈ cands, r.symbol = c.symbol ∧
          ∃ invest price : ℚ, c.price = some price ∧ 0 < price ∧
            (c.min_lot : ℚ) * price ≤ invest ∧
            r.quantity = pyTrunc (invest / ((c.min_lot : ℚ) * price)) * c.min_lot ∧
            1 ≤ pyTrunc (invest / ((c.min_lot : ℚ) * price)) := by
  intro cands
  induction cands with
  | nil =>
    intro cash hml r hr
    simp [allocation_loop] at hr
  | cons c rest ih =>
    intro cash hml r hr
    have hml' : ∀ x ∈ rest, 1 ≤ x.min_lot :=
      fun x hx => hml x (List.mem_cons_of_mem _ hx)
    have htail : ∀ {cash' : ℚ}, r ∈ allocation_loop s base rest cash' →
        ∃ c' ∈ c :: rest, r.symbol = c'.symbol ∧
          ∃ invest price : ℚ, c'.price = some price ∧ 0 < price ∧
            (c'.min_lot : ℚ) * price ≤ invest ∧
            r.quantity = pyTrunc (invest / ((c'.min_lot : ℚ) * price)) * c'.min_lot ∧
            1 ≤ pyTrunc (invest / ((c'.min_lot : ℚ) * price)) := by
      intro cash' hmem
      obtain ⟨c', hc', hrest⟩ := ih cash' hml' r hmem
      exact ⟨c', List.mem_cons_of_mem _ hc', hrest⟩
    rw [allocation_loop] at hr
    by_cases h1 : cash < s.min_trade_size
    · rw [if_pos h1] at hr
      simp at hr
    · rw [if_neg h1] at hr
      cases hcp : c.price with
      | none =>
        rw [hcp] at hr
        exact htail hr
      | some price =>
        rw [hcp] at hr
        dsimp only at hr
        by_cases h2 : price ≤ 0
        · rw [if_pos h2] at hr
          exact htail hr
        · rw [if_neg h2] at hr
          by_cases h3 : min (calculate_position_size
              ⟨c.stock_score, c.combined_priority, c.volatility⟩ base
              s.min_trade_size) cash < s.min_trade_size
          · rw [if_pos h3] at hr
            exact htail hr
          · rw [if_neg h3] at hr
            by_cases h4 : min (calculate_position_size
                ⟨c.stock_score, c.combined_priority, c.volatility⟩ base
                s.min_trade_size) cash < (c.min_lot : ℚ) * price
            · rw [if_pos h4] at hr
              exact htail hr
            · rw [if_neg h4] at hr
              by_cases h5 : pyTrunc (min (calculate_position_size
                  ⟨c.stock_score, c.combined_priority, c.volatility⟩ base
                  s.min_trade_size) cash / ((c.min_lot : ℚ) * price)) *
                  c.min_lot ≤ 0
              · rw [if_pos h5] at hr
                exact htail hr
              · rw [if_neg h5] at hr
                rcases List.mem_cons.mp hr with heq | hmem
                · subst heq
                  refine ⟨c, List.mem_cons_self _ _, rfl,
                    min (calculate_position_size
                      ⟨c.stock_score, c.combined_priority, c.volatility⟩ base
                      s.min_trade_size) cash, price, hcp,
                    lt_of_not_le h2, not_lt.mp h4, rfl, ?_⟩
                  have hml1 : 1 ≤ c.min_lot := hml c (List.mem_cons_self _ _)
                  have hlot : 0 < (c.min_lot : ℚ) * price :=
                    mul_pos (by exact_mod_cast lt_of_lt_of_le Int.zero_lt_one hml1)
                      (lt_of_not_le h2)
                  exact one_le_pyTrunc ((one_le_div hlot).mpr (not_lt.mp h4))
                · exact htail hmem

/-- C8: every TradeRecommendation emitted by the allocation loop of the
Rebalancing Selector has quantity `num_lots * min_lot` for its candidate,
with `num_lots = int(invest / lot_cost) ≥ 1`; a candidate with no obtainable
price, or whose one-lot cost exceeds its allotted amount, is skipped and the
loop continues unchanged with the remaining candidates. -/
theorem c8_lot_multiples_and_skips :
    (∀ (s : Settings) (base : ℚ) (cands : List RankedCandidate) (cash : ℚ),
      (∀ c ∈ cands, 1 ≤ c.min_lot) →
      ∀ r ∈ allocation_loop s base cands cash,
        ∃ c ∈ cands, r.symbol = c.symbol ∧
          ∃ invest price : ℚ, c.price = some price ∧ 0 < price ∧
            (c.min_lot : ℚ) * price ≤ invest ∧
            r.quantity = pyTrunc (invest / ((c.min_lot : ℚ) * price)) * c.min_lot ∧
            1 ≤ pyTrunc (invest / ((c.min_lot : ℚ) * price))) ∧
    (∀ (s : Settings) (base : ℚ) (c : RankedCandidate)
      (rest : List RankedCandidate) (cash : ℚ),
      s.min_trade_size ≤ cash → c.price = none →
      allocation_loop s base (c :: rest) cash = allocation_loop s base rest cash) ∧
    (∀ (s : Settings) (base : ℚ) (c : RankedCandidate)
      (rest : List RankedCandidate) (cash price : ℚ),
      s.min_trade_size ≤ cash → c.price = some price → 0 < price →
      min (calculate_position_size
        ⟨c.stock_score, c.combined_priority, c.volatility⟩ base
        s.min_trade_size) cash < (c.min_lot : ℚ) * price →
      allocation_loop s base (c :: rest) cash = allocation_loop s base rest cash) := by
  refine ⟨fun s base => allocation_loop_quantities s base, ?_, ?_⟩
  · intro s base c rest cash h1 hp
    rw [allocation_loop, if_neg (not_lt.mpr h1), hp]
  · intro s base c rest cash price h1 hp hpos h4
    rw [allocation_loop, if_neg (not_lt.mpr h1), hp]
    dsimp only
    rw [if_neg (not_le.mpr hpos)]
    split_ifs <;> rfl

/-- Witness for C8 at concrete inputs: one affordable candidate producing a
72-lot buy, one candidate with no price, and one candidate whose 1000-share
minimum lot cannot be afforded. -/
theorem c8_lot_multiples_and_skips_witness :
    (∃ c ∈ [(⟨"A", 1/2, 0, none, 1, some 1⟩ : RankedCandidate)],
      (⟨"A", 72, 1, 72⟩ : TradeRecommendation).symbol = c.symbol ∧
      ∃ invest price : ℚ, c.price = some price ∧ 0 < price ∧
        (c.min_lot : ℚ) * price ≤ invest ∧
        (⟨"A", 72, 1, 72⟩ : TradeRecommendation).quantity =
          pyTrunc (invest / ((c.min_lot : ℚ) * price)) * c.min_lot ∧
        1 ≤ pyTrunc (invest / ((c.min_lot : ℚ) * price))) ∧
    allocation_loop ⟨0, 10, 5⟩ 100 [⟨"B", 0, 0, none, 1, none⟩] 100 =
      allocation_loop ⟨0, 10, 5⟩ 100 [] 100 ∧
    allocation_loop ⟨0, 10, 5⟩ 100 [⟨"C", 1/2, 0, none, 1000, some 1⟩] 100 =
      allocation_loop ⟨0, 10, 5⟩ 100 [] 100 := by
  have hcps : calculate_position_size ⟨1/2, 0, none⟩ 100 10 = 72 := by
    norm_num [calculate_position_size, MIN_CONVICTION_MULTIPLIER,
      MAX_CONVICTION_MULTIPLIER, MIN_PRIORITY_MULTIPLIER,
      MAX_PRIORITY_MULTIPLIER, MIN_VOLATILITY_MULTIPLIER,
      MAX_POSITION_SIZE_MULTIPLIER, min_def, max_def]
  refine ⟨?_, ?_, ?_⟩
  · have hout : allocation_loop ⟨0, 10, 5⟩ 100
        [⟨"A", 1/2, 0, none, 1, some 1⟩] 100 = [⟨"A", 72, 1, 72⟩] := by
      rw [allocation_loop]
      norm_num [hcps, min_def, pyTrunc, pyRoundTo, pyRoundToInt, allocation_loop]
    exact c8_lot_multiples_and_skips.1 ⟨0, 10, 5⟩ 100
      [⟨"A", 1/2, 0, none, 1, some 1⟩] 100
      (by intro c hc; rw [List.mem_singleton.mp hc])
      ⟨"A", 72, 1, 72⟩ (by rw [hout]; exact List.mem_singleton.mpr rfl)
  · exact c8_lot_multiples_and_skips.2.1 ⟨0, 10, 5⟩ 100
      ⟨"B", 0, 0, none, 1, none⟩ [] 100 (by norm_num) rfl
  · exact c8_lot_multiples_and_skips.2.2 ⟨0, 10, 5⟩ 100
      ⟨"C", 1/2, 0, none, 1000, some 1⟩ [] 100 1 (by norm_num) rfl (by norm_num)
      (by norm_num [hcps, min_def])

end Allocator

namespace Quality

/-- The Gaussian branch of the bell curve never exceeds 1 (its exponent is
nonpositive for every sigma). -/
lemma gauss_branch_le_one (s x target : ℝ) :
    BELL_CURVE_FLOOR + Real.exp (-((x - target) ^ 2) / (2 * s ^ 2)) *
      (1 - BELL_CURVE_FLOOR) ≤ 1 := by
  have hexp : Real.exp (-((x - target) ^ 2) / (2 * s ^ 2)) ≤ 1 := by
    rw [Real.exp_le_one_iff]
    exact div_nonpos_iff.mpr (Or.inr ⟨neg_nonpos.mpr (sq_nonneg _), by positivity⟩)
  have h2 : Real.exp (-((x - target) ^ 2) / (2 * s ^ 2)) * (1 - BELL_CURVE_FLOOR) ≤
      1 * (1 - BELL_CURVE_FLOOR) :=
    mul_le_mul_of_nonneg_right hexp (by norm_num [BELL_CURVE_FLOOR])
  simp only [BELL_CURVE_FLOOR] at h2 ⊢
  linarith

/-- The Gaussian branch of the bell curve never drops below the floor. -/
lemma floor_le_gauss_branch (s x target : ℝ) :
    BELL_CURVE_FLOOR ≤ BELL_CURVE_FLOOR +
      Real.exp (-((x - target) ^ 2) / (2 * s ^ 2)) * (1 - BELL_CURVE_FLOOR) := by
  have h2 : 0 ≤ Real.exp (-((x - target) ^ 2) / (2 * s ^ 2)) * (1 - BELL_CURVE_FLOOR) :=
    mul_nonneg (Real.exp_pos _).le (by norm_num [BELL_CURVE_FLOOR])
  linarith

/-- The bell-curve score never exceeds 1. -/
lemma score_total_return_le_one (cfg : QualityCfg) (x target : ℝ) :
    score_total_return cfg x target ≤ 1 := by
  simp only [score_total_return]
  split_ifs with h h2
  · norm_num [BELL_CURVE_FLOOR]
  · exact gauss_branch_le_one _ _ _
  · exact gauss_branch_le_one _ _ _

/-- The bell-curve score never drops below the floor. -/
lemma floor_le_score_total_return (cfg : QualityCfg) (x target : ℝ) :
    BELL_CURVE_FLOOR ≤ score_total_return cfg x target := by
  simp only [score_total_return]
  split_ifs with h h2
  · exact le_refl _
  · exact floor_le_gauss_branch _ _ _
  · exact floor_le_gauss_branch _ _ _

/-- C4: the total-return scorer returns the floor for every nonpositive
return, and otherwise the asymmetric Gaussian with the left sigma strictly
below the peak and the right sigma at or above it; at a positive peak the
score is exactly 1, the maximum over all inputs. -/
theorem c4_total_return_bell_curve (cfg : QualityCfg) (x target : ℝ) :
    (x ≤ 0 → score_total_return cfg x target = BELL_CURVE_FLOOR) ∧
    (0 < x → x < target → score_total_return cfg x target =
      BELL_CURVE_FLOOR +
        Real.exp (-((x - target) ^ 2) / (2 * cfg.sigma_left ^ 2)) *
          (1 - BELL_CURVE_FLOOR)) ∧
    (0 < x → target ≤ x → score_total_return cfg x target =
      BELL_CURVE_FLOOR +
        Real.exp (-((x - target) ^ 2) / (2 * cfg.sigma_right ^ 2)) *
          (1 - BELL_CURVE_FLOOR)) ∧
    (0 < target → score_total_return cfg target target = 1) ∧
    score_total_return cfg x target ≤ 1 := by
  refine ⟨?_, ?_, ?_, ?_, score_total_return_le_one cfg x target⟩
  · intro h
    simp only [score_total_return]
    rw [if_pos h]
  · intro h0 h
    simp only [score_total_return]
    rw [if_neg (not_le.mpr h0), if_pos h]
  · intro h0 h
    simp only [score_total_return]
    rw [if_neg (not_le.mpr h0), if_neg (not_lt.mpr h)]
  · intro ht
    simp only [score_total_return]
    rw [if_neg (not_le.mpr ht), if_neg (lt_irrefl target)]
    simp only [sub_self, ne_eq, OfNat.ofNat_ne_zero, not_false_eq_true, zero_pow,
      neg_zero, zero_div, Real.exp_zero]
    ring

/-- Witness for C4 at concrete inputs: sigmas 1 and 2, peak 0.11; a negative
return scores the floor, returns on each side of the peak use the matching
sigma, and the peak itself scores exactly 1. -/
theorem c4_total_return_bell_curve_witness :
    ((-1 : ℝ) ≤ 0 ∧
      score_total_return ⟨1, 2, 0, 0, 0⟩ (-1) (11/100) = BELL_CURVE_FLOOR) ∧
    ((0 : ℝ) < 1/100 ∧ (1/100 : ℝ) < 11/100 ∧
      score_total_return ⟨1, 2, 0, 0, 0⟩ (1/100) (11/100) =
        BELL_CURVE_FLOOR +
          Real.exp (-(((1:ℝ)/100 - 11/100) ^ 2) / (2 * (1:ℝ) ^ 2)) *
            (1 - BELL_CURVE_FLOOR)) ∧
    ((0 : ℝ) < 2/10 ∧ (11/100 : ℝ) ≤ 2/10 ∧
      score_total_return ⟨1, 2, 0, 0, 0⟩ (2/10) (11/100) =
        BELL_CURVE_FLOOR +
          Real.exp (-(((2:ℝ)/10 - 11/100) ^ 2) / (2 * (2:ℝ) ^ 2)) *
            (1 - BELL_CURVE_FLOOR)) ∧
    ((0 : ℝ) < 11/100 ∧
      score_total_return ⟨1, 2, 0, 0, 0⟩ (11/100) (11/100) = 1) :=
  ⟨⟨by norm_num,
      (c4_total_return_bell_curve ⟨1, 2, 0, 0, 0⟩ (-1) (11/100)).1 (by norm_num)⟩,
    ⟨by norm_num, by norm_num,
      (c4_total_return_bell_curve ⟨1, 2, 0, 0, 0⟩ (1/100) (11/100)).2.1
        (by norm_num) (by norm_num)⟩,
    ⟨by norm_num, by norm_num,
      (c4_total_return_bell_curve ⟨1, 2, 0, 0, 0⟩ (2/10) (11/100)).2.2.1
        (by norm_num) (by norm_num)⟩,
    ⟨by norm_num,
      (c4_total_return_bell_curve ⟨1, 2, 0, 0, 0⟩ 0 (11/100)).2.2.2.1
        (by norm_num)⟩⟩

/-- Consistency score bounds: always within `[0.4, 1]`. -/
lemma consistency_score_bounds (cagr_5y : ℝ) (cagr_10y : Option ℝ) :
    4/10 ≤ calculate_consistency_score cagr_5y cagr_10y ∧
    calculate_consistency_score cagr_5y cagr_10y ≤ 1 := by
  unfold calculate_consistency_score
  cases cagr_10y with
  | none => norm_num
  | some c10y =>
    dsimp only
    have habs : 0 ≤ |cagr_5y - c10y| := abs_nonneg _
    split_ifs with h1 h2
    · norm_num
    · norm_num
    · exact ⟨le_max_left _ _, max_le (by norm_num) (by linarith)⟩

/-- Sharpe score bounds: always within `[0, 1]`. -/
lemma sharpe_score_bounds (sharpe : Option ℝ) :
    0 ≤ calculate_sharpe_score sharpe ∧ calculate_sharpe_score sharpe ≤ 1 := by
  unfold calculate_sharpe_score
  cases sharpe with
  | none => norm_num
  | some sr =>
    simp only [SHARPE_EXCELLENT, SHARPE_GOOD, SHARPE_OK]
    split_ifs with h1 h2 h3 h4 <;> constructor <;> linarith

/-- Drawdown score bounds: always within `[0, 1]`. -/
lemma drawdown_score_bounds (max_drawdown : Option ℝ) :
    0 ≤ calculate_drawdown_score max_drawdown ∧
    calculate_drawdown_score max_drawdown ≤ 1 := by
  unfold calculate_drawdown_score
  cases max_drawdown with
  | none => norm_num
  | some md =>
    simp only [DRAWDOWN_EXCELLENT, DRAWDOWN_GOOD, DRAWDOWN_OK, DRAWDOWN_POOR]
    have habs : 0 ≤ |md| := abs_nonneg _
    split_ifs with h1 h2 h3 h4 <;>
      constructor <;>
        first
          | linarith
          | exact le_max_left _ _
          | exact max_le (by linarith) (by linarith)

/-- The dividend bonus is nonnegative whenever the tier constants are. -/
lemma dividend_bonus_nonneg (cfg : QualityCfg) (h1 : 0 ≤ cfg.low_bonus)
    (h2 : 0 ≤ cfg.mid_bonus) (h3 : 0 ≤ cfg.high_bonus) (dy : Option ℝ) :
    0 ≤ calculate_dividend_bonus cfg dy := by
  unfold calculate_dividend_bonus
  cases dy with
  | none => exact le_refl 0
  | some d =>
    dsimp only
    split_ifs <;> first | exact le_refl 0 | assumption

/-- The financial-strength score is nonnegative provided a present current
ratio is nonnegative (Python replaces an absent or zero current ratio by 1). -/
lemma financial_strength_nonneg (fundamentals : Option Fundamentals)
    (hcr : ∀ g v, fundamentals = some g → g.current_ratio = some v → 0 ≤ v) :
    0 ≤ calculate_financial_strength_score fundamentals := by
  unfold calculate_financial_strength_score
  cases hf : fundamentals with
  | none => norm_num
  | some g =>
    dsimp only
    have hm : 0 ≤ (if 0 ≤ pyOr g.profit_margin 0 then
        min 1 (1/2 + pyOr g.profit_margin 0 * (25/10))
      else max 0 (1/2 + pyOr g.profit_margin 0 * 2)) := by
      split_ifs with h
      · exact le_min (by norm_num) (by nlinarith)
      · exact le_max_left _ _
    have hde : 0 ≤ max 0 (1 - min 200 (pyOr g.debt_to_equity 50) / 200) :=
      le_max_left _ _
    have hcr0 : 0 ≤ pyOr g.current_ratio 1 := by
      unfold pyOr
      cases hg : g.current_ratio with
      | none => norm_num
      | some v =>
        dsimp only
        split_ifs with h
        · norm_num
        · exact hcr g v hf hg
    have hcrs : 0 ≤ min 1 (min 3 (pyOr g.current_ratio 1) / 2) :=
      le_min (by norm_num) (div_nonneg (le_min (by norm_num) hcr0) (by norm_num))
    have := mul_nonneg hm (by norm_num : (0:ℝ) ≤ 40/100)
    have := mul_nonneg hde (by norm_num : (0:ℝ) ≤ 30/100)
    have := mul_nonneg hcrs (by norm_num : (0:ℝ) ≤ 30/100)
    linarith

/-- A capped-then-rounded total never exceeds 1. -/
lemma rounded_capped_le_one (x : ℝ) : pyRoundTo 1000 (min 1 x) ≤ 1 := by
  have h2 : pyRoundTo (1000:ℝ) 1 = 1 := by
    rw [pyRoundTo_of_int 1000 1 1000 (by norm_num)]
    norm_num
  calc pyRoundTo 1000 (min 1 x) ≤ pyRoundTo 1000 1 :=
        pyRoundTo_mono 1000 (by norm_num) (min_le_left _ _)
    _ = 1 := h2

/-- A capped-then-rounded total of a nonnegative value is nonnegative. -/
lemma rounded_capped_nonneg {x : ℝ} (hx : 0 ≤ x) :
    0 ≤ pyRoundTo 1000 (min 1 x) := by
  have h0 : pyRoundTo (1000:ℝ) 0 = 0 := by
    rw [pyRoundTo_of_int 1000 0 0 (by norm_num)]
    norm_num
  calc (0:ℝ) = pyRoundTo 1000 0 := h0.symm
    _ ≤ pyRoundTo 1000 (min 1 x) :=
        pyRoundTo_mono 1000 (by norm_num) (le_min (by norm_num) hx)

/-- The weighted component sum is nonnegative when every component is. -/
lemma weighted_sum_nonneg {trs cons fin shs dds bonus : ℝ}
    (h1 : 0 ≤ trs) (h2 : 0 ≤ cons) (h3 : 0 ≤ fin) (h4 : 0 ≤ shs)
    (h5 : 0 ≤ dds) (h6 : 0 ≤ bonus) :
    0 ≤ trs * QUALITY_WEIGHT_TOTAL_RETURN + cons * QUALITY_WEIGHT_CONSISTENCY +
      fin * QUALITY_WEIGHT_FINANCIAL_STRENGTH + shs * QUALITY_WEIGHT_SHARPE +
      dds * QUALITY_WEIGHT_MAX_DRAWDOWN + bonus := by
  simp only [QUALITY_WEIGHT_TOTAL_RETURN, QUALITY_WEIGHT_CONSISTENCY,
    QUALITY_WEIGHT_FINANCIAL_STRENGTH, QUALITY_WEIGHT_SHARPE,
    QUALITY_WEIGHT_MAX_DRAWDOWN]
  have := mul_nonneg h1 (by norm_num : (0:ℝ) ≤ 40/100)
  have := mul_nonneg h2 (by norm_num : (0:ℝ) ≤ 20/100)
  have := mul_nonneg h3 (by norm_num : (0:ℝ) ≤ 20/100)
  have := mul_nonneg h4 (by norm_num : (0:ℝ) ≤ 10/100)
  have := mul_nonneg h5 (by norm_num : (0:ℝ) ≤ 10/100)
  linarith

/-- C5 (amended): the quality scorer returns a defined QualityScore exactly
when the monthly series has at least 24 months of history; the stored total
is the weighted component sum plus the dividend bonus, capped at 1.0 and
then rounded to three decimals; it never exceeds 1, and it is nonnegative
provided a present `current_ratio` is nonnegative (and the dividend tier
constants are nonnegative) — for arbitrary sharpe/drawdown calculators. -/
theorem c5_quality_defined_iff_and_total_bounds (cfg : QualityCfg)
    (sharpe_calc drawdown_calc : List ℝ → Option ℝ)
    (monthly_prices : List MonthlyPrice) (daily_prices : List DailyPrice)
    (fundamentals : Option Fundamentals) (target_annual_return : ℝ)
    (hb1 : 0 ≤ cfg.low_bonus) (hb2 : 0 ≤ cfg.mid_bonus)
    (hb3 : 0 ≤ cfg.high_bonus) :
    (calculate_quality_score cfg sharpe_calc drawdown_calc monthly_prices
        daily_prices fundamentals target_annual_return = none ↔
      monthly_prices.length < MIN_MONTHS_FOR_CAGR) ∧
    ∀ q, calculate_quality_score cfg sharpe_calc drawdown_calc monthly_prices
        daily_prices fundamentals target_annual_return = some q →
      ∃ trs cons fin bonus shs dds : ℝ,
        q.total = pyRoundTo 1000 (min 1
          (trs * QUALITY_WEIGHT_TOTAL_RETURN + cons * QUALITY_WEIGHT_CONSISTENCY +
            fin * QUALITY_WEIGHT_FINANCIAL_STRENGTH + shs * QUALITY_WEIGHT_SHARPE +
            dds * QUALITY_WEIGHT_MAX_DRAWDOWN + bonus)) ∧
        q.total_return_score = pyRoundTo 1000 trs ∧
        q.consistency_score = pyRoundTo 1000 cons ∧
        q.financial_strength_score = pyRoundTo 1000 fin ∧
        q.dividend_bonus = pyRoundTo 1000 bonus ∧
        q.sharpe_ratio_score = pyRoundTo 1000 shs ∧
        q.max_drawdown_score = pyRoundTo 1000 dds ∧
        BELL_CURVE_FLOOR ≤ trs ∧ trs ≤ 1 ∧ 4/10 ≤ cons ∧ cons ≤ 1 ∧
        0 ≤ shs ∧ shs ≤ 1 ∧ 0 ≤ dds ∧ dds ≤ 1 ∧ 0 ≤ bonus ∧
        q.total ≤ 1 ∧
        ((∀ g v, fundamentals = some g → g.current_ratio = some v → 0 ≤ v) →
          0 ≤ fin ∧ 0 ≤ q.total) := by
  by_cases hlen : monthly_prices.length < MIN_MONTHS_FOR_CAGR
  · constructor
    · exact ⟨fun _ => hlen, fun _ => by simp [calculate_quality_score, hlen]⟩
    · intro q hq
      simp [calculate_quality_score, hlen] at hq
  · simp only [calculate_quality_score, if_neg hlen]
    constructor
    · exact ⟨fun h => by simp at h, fun h => absurd h hlen⟩
    · intro q hq
      rw [Option.some.injEq] at hq
      subst hq
      refine ⟨_, _, _, _, _, _, rfl, rfl, rfl, rfl, rfl, rfl, rfl,
        floor_le_score_total_return cfg _ _,
        score_total_return_le_one cfg _ _,
        (consistency_score_bounds _ _).1,
        (consistency_score_bounds _ _).2,
        (sharpe_score_bounds _).1,
        (sharpe_score_bounds _).2,
        (drawdown_score_bounds _).1,
        (drawdown_score_bounds _).2,
        dividend_bonus_nonneg cfg hb1 hb2 hb3 _,
        rounded_capped_le_one _,
        ?_⟩
      intro hcr
      refine ⟨financial_strength_nonneg fundamentals hcr, ?_⟩
      exact rounded_capped_nonneg (weighted_sum_nonneg
        (le_trans (by norm_num [BELL_CURVE_FLOOR])
          (floor_le_score_total_return cfg _ _))
        (le_trans (by norm_num) (consistency_score_bounds _ _).1)
        (financial_strength_nonneg fundamentals hcr)
        (sharpe_score_bounds _).1
        (drawdown_score_bounds _).1
        (dividend_bonus_nonneg cfg hb1 hb2 hb3 _))

/-- C5 counterexample: with 24 months of flat prices, no daily prices, and
fundamentals whose `current_ratio` is `-100`, the quality total is
`-2.635`, outside the claimed `[0, 1]`: the financial-strength current-ratio
term `min(1, cr/2)` is unbounded below and the cap applies only above. -/
theorem c5_total_unit_interval_counterexample :
    ((calculate_quality_score ⟨1, 2, 1/50, 1/20, 1/10⟩ (fun _ => none)
        (fun _ => none) (List.replicate 24 ⟨some 1⟩) []
        (some ⟨none, none, some (-100), none⟩) (11/100)).map
      QualityScore.total) = some (-(527/200)) ∧
    ¬ (0 ≤ (-(527/200) : ℝ)) := by
  refine ⟨?_, by norm_num⟩
  have hlen : ¬ ((List.replicate 24 (⟨some 1⟩ : MonthlyPrice)).length <
      MIN_MONTHS_FOR_CAGR) := by
    simp [MIN_MONTHS_FOR_CAGR]
  have hh : (List.replicate 24 (⟨some 1⟩ : MonthlyPrice)).head? = some ⟨some 1⟩ := rfl
  have hl : (List.replicate 24 (⟨some 1⟩ : MonthlyPrice)).getLast? = some ⟨some 1⟩ := rfl
  have hcagr : calculate_cagr (List.replicate 24 (⟨some 1⟩ : MonthlyPrice)) 60 =
      some 0 := by
    unfold calculate_cagr
    rw [if_neg hlen]
    simp only [List.length_replicate]
    norm_num [hh, hl]
  have hfin : calculate_financial_strength_score
      (some ⟨none, none, some (-100), none⟩) = -(583/40) := by
    unfold calculate_financial_strength_score
    norm_num [pyOr, min_def, max_def]
  unfold calculate_quality_score
  rw [if_neg hlen]
  simp only [hcagr, List.length_replicate, Option.map_some', QualityScore.total]
  norm_num [pyOr, hfin, score_total_return, BELL_CURVE_FLOOR,
    calculate_consistency_score, calculate_dividend_bonus,
    calculate_sharpe_score, calculate_drawdown_score,
    QUALITY_WEIGHT_TOTAL_RETURN, QUALITY_WEIGHT_CONSISTENCY,
    QUALITY_WEIGHT_FINANCIAL_STRENGTH, QUALITY_WEIGHT_SHARPE,
    QUALITY_WEIGHT_MAX_DRAWDOWN, min_def]
  rw [pyRoundTo_of_int 1000 (-(527/200) : ℝ) (-2635) (by norm_num)]
  norm_num

/-- Witness for C5 at a concrete input: empty price history (undefined
score, 0 < 24) with nonnegative bonus constants. -/
theorem c5_quality_defined_iff_witness :
    ((calculate_quality_score ⟨1, 2, 1/50, 1/20, 1/10⟩ (fun _ => none)
        (fun _ => none) [] [] none (11/100) = none ↔
      ([] : List MonthlyPrice).length < MIN_MONTHS_FOR_CAGR) ∧
    ∀ q, calculate_quality_score ⟨1, 2, 1/50, 1/20, 1/10⟩ (fun _ => none)
        (fun _ => none) [] [] none (11/100) = some q →
      ∃ trs cons fin bonus shs dds : ℝ,
        q.total = pyRoundTo 1000 (min 1
          (trs * QUALITY_WEIGHT_TOTAL_RETURN + cons * QUALITY_WEIGHT_CONSISTENCY +
            fin * QUALITY_WEIGHT_FINANCIAL_STRENGTH + shs * QUALITY_WEIGHT_SHARPE +
            dds * QUALITY_WEIGHT_MAX_DRAWDOWN + bonus)) ∧
        q.total_return_score = pyRoundTo 1000 trs ∧
        q.consistency_score = pyRoundTo 1000 cons ∧
        q.financial_strength_score = pyRoundTo 1000 fin ∧
        q.dividend_bonus = pyRoundTo 1000 bonus ∧
        q.sharpe_ratio_score = pyRoundTo 1000 shs ∧
        q.max_drawdown_score = pyRoundTo 1000 dds ∧
        BELL_CURVE_FLOOR ≤ trs ∧ trs ≤ 1 ∧ 4/10 ≤ cons ∧ cons ≤ 1 ∧
        0 ≤ shs ∧ shs ≤ 1 ∧ 0 ≤ dds ∧ dds ≤ 1 ∧ 0 ≤ bonus ∧
        q.total ≤ 1 ∧
        ((∀ g v, (none : Option Fundamentals) = some g →
            g.current_ratio = some v → 0 ≤ v) →
          0 ≤ fin ∧ 0 ≤ q.total)) :=
  c5_quality_defined_iff_and_total_bounds ⟨1, 2, 1/50, 1/20, 1/10⟩
    (fun _ => none) (fun _ => none) [] [] none (11/100)
    (by norm_num) (by norm_num) (by norm_num)

end Quality

namespace Planning

/-- Evaluation of the batched generator at a three-sequence input with batch
size 1: the first emitted batch already carries `total_batches = 3`, the
exact batch count of the entire feasibility-filtered set — producing it
therefore requires the full enumeration and feasibility filter to have run
to completion, which is how the code behaves (`generate_sequences_batched`
awaits the whole enumeration and filters it before its first yield). -/
theorem c9_first_batch_requires_full_enumeration :
    ((generate_sequences_batched
        [[⟨TradeSide.buy, "A", 1, 10, 10, 1⟩], [⟨TradeSide.buy, "B", 1, 10, 10, 1⟩],
          [⟨TradeSide.buy, "C", 1, 10, 10, 1⟩]] ⟨1000, 0, 0, 1⟩ 1).head?.map
      SequenceBatch.total_batches) = some 3 ∧
    (apply_feasibility_filter
        [[⟨TradeSide.buy, "A", 1, 10, 10, 1⟩], [⟨TradeSide.buy, "B", 1, 10, 10, 1⟩],
          [⟨TradeSide.buy, "C", 1, 10, 10, 1⟩]] ⟨1000, 0, 0, 1⟩).length = 3 := by
  have hfeas : ∀ sym : String, sequence_is_feasible ⟨1000, 0, 0, 1⟩
      [⟨TradeSide.buy, sym, 1, 10, 10, 1⟩] = true := by
    intro sym
    simp [sequence_is_feasible, sequence_cash]
    norm_num
  have hfilter : apply_feasibility_filter
      [[⟨TradeSide.buy, "A", 1, 10, 10, 1⟩], [⟨TradeSide.buy, "B", 1, 10, 10, 1⟩],
        [⟨TradeSide.buy, "C", 1, 10, 10, 1⟩]] ⟨1000, 0, 0, 1⟩ =
      [[⟨TradeSide.buy, "A", 1, 10, 10, 1⟩], [⟨TradeSide.buy, "B", 1, 10, 10, 1⟩],
        [⟨TradeSide.buy, "C", 1, 10, 10, 1⟩]] := by
    unfold apply_feasibility_filter
    rw [List.filter_cons_of_pos (hfeas "A"), List.filter_cons_of_pos (hfeas "B"),
      List.filter_cons_of_pos (hfeas "C")]
    rfl
  constructor
  · unfold generate_sequences_batched
    rw [hfilter]
    rfl
  · rw [hfilter]
    rfl

end Planning
